import Mathlib

/-!
# Verification of `pubmed_scraper.py`

A shallow embedding of the core pipeline of `src/pubmed_scraper.py`:
`get_total_records` (the query initiator) and `fetch_articles_in_batches`
(the batch fetcher / row flattener), plus the row shape written by
`save_to_csv`.  Network responses are modelled as values: the esearch
response is a record of optional text fields, and the efetch endpoint is a
function from the request parameters `(retstart, retmax)` to the list of
parsed `PubmedArticle` elements of the returned payload.  The mutable
Python state (`article_data`, `record_count`, plus the observable request
and progress-bar effects) is threaded explicitly through the loop.
-/

namespace PubmedScraper

/-- One `<Author>` element: each subfield (`LastName`, `ForeName`,
`Initials`, `Affiliation`) may be absent. -/
structure Author where
  lastName : Option String
  foreName : Option String
  initials : Option String
  affiliation : Option String
  deriving Repr, DecidableEq

/-- A `<PubDate>` container whose `<Year>` child may be absent. -/
structure PubDate where
  year : Option String
  deriving Repr, DecidableEq

/-- One `<PubmedArticle>` element: `PMID`, `ArticleTitle` and the
`PubDate` container may each be absent; `authors` is the list returned by
`article.find_all("Author")`. -/
structure Article where
  pmid : Option String
  articleTitle : Option String
  pubDate : Option PubDate
  authors : List Author
  deriving Repr, DecidableEq

/-- The guarded access `x.text if x else "N/A"` used for every flat
field of the source. -/
def optText (o : Option String) : String := o.getD "N/A"

/-- Line 75 of the source: the year is read through two optional levels,
`article.find("PubDate")` and then `.find("Year")`; absence at either
level yields `"N/A"`. -/
def articleYear (a : Article) : String :=
  match a.pubDate with
  | none => "N/A"
  | some d =>
    match d.year with
    | none => "N/A"
    | some y => y

/-- Lines 73 to 83: the row appended for one author of one article, in
the fixed order
`[pmid, title, year, last_name, fore_name, initials, affiliation]`. -/
def extractRow (a : Article) (au : Author) : List String :=
  [optText a.pmid, optText a.articleTitle, articleYear a,
    optText au.lastName, optText au.foreName, optText au.initials,
    optText au.affiliation]

/-- Lines 73 to 83: all rows contributed by one article, one per author
in `find_all` order (an article with no authors contributes none). -/
def articleRows (a : Article) : List (List String) :=
  a.authors.map (extractRow a)

/-- Which `return` statement of the per-article loop fired: the dry-run
preview return (lines 64 to 67, which also prints) or the record-limit
return (lines 69 to 71). -/
inductive ExitReason where
  | dryRunCap
  | limitCap
  deriving Repr, DecidableEq

/-- The mutable state of one `fetch_articles_in_batches` run, together
with its observable effects: `articleData` and `recordCount` are the
Python locals; `processed` records the articles that reached the
extraction code (ghost trace); `requests` records each efetch request's
`(retstart, retmax)` pair; `pbarUpdates` records each `pbar.update`
amount.  `retmax` and the updates are integers because the Python
expression `min(batch_size, total_to_retrieve - record_count)` can be
negative. -/
structure RunState where
  articleData : List (List String)
  recordCount : Nat
  processed : List Article
  requests : List (Nat × Int)
  pbarUpdates : List Int
  deriving Repr, DecidableEq

/-- Line 69: `record_limit is not None and record_count >= record_limit`. -/
def limitFires (recordLimit : Option Nat) (recordCount : Nat) : Bool :=
  match recordLimit with
  | some l => l ≤ recordCount
  | none => false

/-- Lines 63 to 85: the per-article loop over one batch payload.  For
each article, the dry-run preview check runs first (returning at 10 or
more accumulated rows, `preview_limit = 10`), then the record-limit
check; otherwise every author row of the article is appended and
`record_count` is incremented once.  Returns the state and, when one of
the two `return` statements fired, which one. -/
def processArticles (dryRun : Bool) (recordLimit : Option Nat) :
    List Article → RunState → RunState × Option ExitReason
  | [], s => (s, none)
  | a :: rest, s =>
    if dryRun = true ∧ 10 ≤ s.articleData.length then
      (s, some .dryRunCap)
    else if limitFires recordLimit s.recordCount then
      (s, some .limitCap)
    else
      processArticles dryRun recordLimit rest
        { s with
          articleData := s.articleData ++ articleRows a,
          recordCount := s.recordCount + 1,
          processed := s.processed ++ [a] }

/-- Line 39: `min(total_records, record_limit) if record_limit else
total_records` — a limit of `0` is falsy in Python, so it is treated as
unset here. -/
def totalToRetrieve (totalRecords : Nat) (recordLimit : Option Nat) : Nat :=
  match recordLimit with
  | some l => if l ≠ 0 then min totalRecords l else totalRecords
  | none => totalRecords

/-- Line 46: `range(0, total_to_retrieve, batch_size)` for a positive
step: `⌈stop / step⌉` offsets `0, step, 2·step, …`. -/
def pyRangeWindows (stop step : Nat) : List Nat :=
  (List.range ((stop + step - 1) / step)).map (fun i => i * step)

/-- Line 47: `current_batch_size = min(batch_size, total_to_retrieve -
record_count)` — an integer, because the Python subtraction may go
negative. -/
def wcbs (ttr batchSize recordCount : Nat) : Int :=
  min (batchSize : Int) ((ttr : Int) - (recordCount : Int))

/-- Lines 46 to 90: the window loop.  Each iteration computes
`current_batch_size`, issues the efetch request, runs the per-article
loop, and — unless that loop returned early — calls
`pbar.update(current_batch_size)` and continues with the next offset. -/
def runWindows (dryRun : Bool) (recordLimit : Option Nat)
    (ttr batchSize : Nat) (fetch : Nat → Int → List Article) :
    List Nat → RunState → RunState × Option ExitReason
  | [], s => (s, none)
  | retstart :: rest, s =>
    match processArticles dryRun recordLimit
        (fetch retstart (wcbs ttr batchSize s.recordCount))
        { s with requests :=
            s.requests ++ [(retstart, wcbs ttr batchSize s.recordCount)] } with
    | (s2, some r) => (s2, some r)
    | (s2, none) =>
      runWindows dryRun recordLimit ttr batchSize fetch rest
        { s2 with pbarUpdates :=
            s2.pbarUpdates ++ [wcbs ttr batchSize s.recordCount] }

/-- The initial `RunState`: `article_data = []`, `record_count = 0`, no
effects yet. -/
def initState : RunState := ⟨[], 0, [], [], []⟩

/-- Lines 29 to 92: `fetch_articles_in_batches`.  The efetch endpoint is
the function `fetch`; the result is the final state (whose
`articleData` is the Python return value) and the `return` statement
that produced it (`none` for normal loop completion at line 92). -/
def fetch_articles_in_batches (dryRun : Bool) (recordLimit : Option Nat)
    (totalRecords batchSize : Nat) (fetch : Nat → Int → List Article) :
    RunState × Option ExitReason :=
  runWindows dryRun recordLimit (totalToRetrieve totalRecords recordLimit)
    batchSize fetch
    (pyRangeWindows (totalToRetrieve totalRecords recordLimit) batchSize)
    initState

/-- The esearch response, as the fields the source reads from it:
`soup.find("Count")`, `soup.find("WebEnv")`, `soup.find("QueryKey")`,
each possibly absent. -/
structure ESearchResponse where
  count : Option String
  webEnv : Option String
  queryKey : Option String
  deriving Repr, DecidableEq

/-- The failure taxonomy of the spec: a transport failure, or a parse
failure — the exception raised when an expected structured field is
absent from a response (in the Python source this surfaces as the
`AttributeError` of `.text` on `None`, or `ValueError` from `int`) . -/
inductive ScraperError where
  | transportError
  | parseError
  deriving Repr, DecidableEq

/-- Lines 22 to 27 of `get_total_records`, after the transport phase
succeeded: read `Count` (and convert it with `int`), `WebEnv` and
`QueryKey` in that order; any absent field (or non-numeric count) raises
— modelled as `Except.error .parseError` — with no retry, and only when
all three are present is the `(count, web_env, query_key)` triple
returned. -/
def get_total_records (resp : ESearchResponse) :
    Except ScraperError (Int × String × String) :=
  match resp.count with
  | none => .error .parseError
  | some c =>
    match c.toInt? with
    | none => .error .parseError
    | some n =>
      match resp.webEnv with
      | none => .error .parseError
      | some w =>
        match resp.queryKey with
        | none => .error .parseError
        | some q => .ok (n, w, q)

/-- Line 95: the fixed CSV header. -/
def csvHeader : List String :=
  ["PMID", "Title", "Year", "Last Name", "First Name", "Initials",
    "Affiliation"]

/-- Lines 94 to 99: the sequence of rows `save_to_csv` writes — the
header followed by the accumulated data rows. -/
def save_to_csv (data : List (List String)) : List (List String) :=
  csvHeader :: data

/-!
## Helper lemmas about the per-article loop
-/

theorem limitFires_none (c : Nat) : limitFires none c = false := rfl

theorem limitFires_some (l c : Nat) :
    limitFires (some l) c = decide (l ≤ c) := rfl

/-- When the record-limit check already fires, the first article of a
non-empty payload triggers one of the two early returns, so the state is
returned unchanged. -/
theorem processArticles_fst_of_limitFires (d : Bool) (limit : Option Nat)
    (arts : List Article) (s : RunState)
    (h : limitFires limit s.recordCount = true) :
    (processArticles d limit arts s).1 = s := by
  cases arts with
  | nil => rfl
  | cons a rest =>
    simp only [processArticles, h]
    split
    · rfl
    · rfl

/-- A non-empty payload under a firing record-limit check produces an
early return. -/
theorem processArticles_snd_of_limitFires (d : Bool) (limit : Option Nat)
    (a : Article) (rest : List Article) (s : RunState)
    (h : limitFires limit s.recordCount = true) :
    ∃ r, processArticles d limit (a :: rest) s = (s, some r) := by
  simp only [processArticles, h]
  split
  · exact ⟨.dryRunCap, rfl⟩
  · exact ⟨.limitCap, rfl⟩

/-- The per-article loop never touches the request or progress-bar
traces. -/
theorem processArticles_effects (d : Bool) (limit : Option Nat)
    (arts : List Article) :
    ∀ s : RunState,
      (processArticles d limit arts s).1.requests = s.requests ∧
      (processArticles d limit arts s).1.pbarUpdates = s.pbarUpdates := by
  induction arts with
  | nil => intro s; exact ⟨rfl, rfl⟩
  | cons a rest ih =>
    intro s
    simp only [processArticles]
    split
    · exact ⟨rfl, rfl⟩
    · split
      · exact ⟨rfl, rfl⟩
      · exact ih _

/-- With `dry_run` off and a record limit loose enough never to fire,
the whole payload is processed: every article's rows are appended in
order, the record count grows by the payload length, and no early return
happens. -/
theorem processArticles_all (limit : Option Nat) (arts : List Article) :
    ∀ s : RunState, (∀ l, limit = some l → s.recordCount + arts.length ≤ l) →
      processArticles false limit arts s =
        ({ s with
            articleData := s.articleData ++ (arts.map articleRows).flatten,
            recordCount := s.recordCount + arts.length,
            processed := s.processed ++ arts }, none) := by
  induction arts with
  | nil =>
    intro s _
    simp [processArticles]
  | cons a rest ih =>
    intro s h
    have hnf : limitFires limit s.recordCount = false := by
      cases limit with
      | none => rfl
      | some l =>
        have hbound := h l rfl
        simp only [List.length_cons] at hbound
        simp only [limitFires_some, decide_eq_false_iff_not]
        omega
    have h2 : ∀ l, limit = some l →
        s.recordCount + 1 + rest.length ≤ l := by
      intro l hl
      have hbound := h l hl
      simp only [List.length_cons] at hbound
      omega
    simp only [processArticles, Bool.false_eq_true, false_and, if_false,
      hnf, ite_false]
    rw [ih _ h2]
    simp [articleRows, List.append_assoc, List.length_cons, Nat.add_assoc,
      Nat.add_comm, Nat.add_left_comm]

/-- With a record limit of `l`, the record count stays at most `l`
through the per-article loop, for arbitrary payloads: the check at line
69 runs before each article is processed. -/
theorem processArticles_count_le_limit (d : Bool) (l : Nat) :
    ∀ (arts : List Article) (s : RunState), s.recordCount ≤ l →
      (processArticles d (some l) arts s).1.recordCount ≤ l := by
  intro arts
  induction arts with
  | nil => intro s hs; exact hs
  | cons a rest ih =>
    intro s hs
    simp only [processArticles]
    split
    · exact hs
    · split
      · exact hs
      · next hlf =>
        refine ih _ ?_
        simp only [limitFires_some, decide_eq_true_eq] at hlf
        show s.recordCount + 1 ≤ l
        omega

/-- The record count grows by at most one per payload article. -/
theorem processArticles_count_growth (d : Bool) (limit : Option Nat) :
    ∀ (arts : List Article) (s : RunState),
      (processArticles d limit arts s).1.recordCount ≤
        s.recordCount + arts.length := by
  intro arts
  induction arts with
  | nil => intro s; show s.recordCount ≤ s.recordCount + 0; omega
  | cons a rest ih =>
    intro s
    simp only [processArticles]
    split
    · show s.recordCount ≤ s.recordCount + (a :: rest).length
      simp only [List.length_cons]; omega
    · split
      · show s.recordCount ≤ s.recordCount + (a :: rest).length
        simp only [List.length_cons]; omega
      · refine le_trans (ih _) ?_
        show s.recordCount + 1 + rest.length ≤ s.recordCount + (a :: rest).length
        simp only [List.length_cons]
        omega

/-- The relation between the three data-carrying state components that
the loop maintains: the accumulated rows are exactly the concatenated
row blocks of the processed articles, in order, and the record count is
the number of processed articles. -/
def Consistent (s : RunState) : Prop :=
  s.articleData = (s.processed.map articleRows).flatten ∧
  s.recordCount = s.processed.length

theorem initState_consistent : Consistent initState := ⟨rfl, rfl⟩

/-- The per-article loop preserves `Consistent`: each processed article
appends its whole row block and bumps the count once. -/
theorem processArticles_consistent (d : Bool) (limit : Option Nat) :
    ∀ (arts : List Article) (s : RunState), Consistent s →
      Consistent (processArticles d limit arts s).1 := by
  intro arts
  induction arts with
  | nil => intro s hs; exact hs
  | cons a rest ih =>
    intro s hs
    simp only [processArticles]
    split
    · exact hs
    · split
      · exact hs
      · refine ih _ ?_
        obtain ⟨h1, h2⟩ := hs
        constructor
        · show s.articleData ++ articleRows a =
            ((s.processed ++ [a]).map articleRows).flatten
          simp [h1]
        · show s.recordCount + 1 = (s.processed ++ [a]).length
          simp [h2]

/-- In dry-run mode, when every payload article has at most `A` authors,
the accumulated row count stays at most `9 + A`: an article is only
appended while fewer than 10 rows are accumulated, and it adds at most
`A` rows. -/
theorem processArticles_dry_len (limit : Option Nat) (A : Nat) :
    ∀ (arts : List Article) (s : RunState),
      (∀ a ∈ arts, a.authors.length ≤ A) →
      s.articleData.length ≤ 9 + A →
      (processArticles true limit arts s).1.articleData.length ≤ 9 + A := by
  intro arts
  induction arts with
  | nil => intro s _ hs; exact hs
  | cons a rest ih =>
    intro s hA hs
    simp only [processArticles]
    split
    · exact hs
    · next hdry =>
      split
      · exact hs
      · refine ih _ (fun x hx => hA x (List.mem_cons_of_mem _ hx)) ?_
        have hlen : s.articleData.length ≤ 9 := by
          simp only [not_and, not_le] at hdry
          have := hdry trivial
          omega
        have ha : (articleRows a).length ≤ A := by
          simpa [articleRows] using hA a (List.mem_cons_self a rest)
        show (s.articleData ++ articleRows a).length ≤ 9 + A
        simp only [List.length_append]
        omega

/-- In dry-run mode, when every payload article has at least one author,
at most 10 articles are ever processed: each processed article adds at
least one row, and processing stops at 10 rows. -/
theorem processArticles_dry_count (limit : Option Nat) :
    ∀ (arts : List Article) (s : RunState),
      (∀ a ∈ arts, 1 ≤ a.authors.length) →
      s.recordCount ≤ s.articleData.length → s.recordCount ≤ 10 →
      (processArticles true limit arts s).1.recordCount ≤
          (processArticles true limit arts s).1.articleData.length ∧
        (processArticles true limit arts s).1.recordCount ≤ 10 := by
  intro arts
  induction arts with
  | nil => intro s _ h1 h2; exact ⟨h1, h2⟩
  | cons a rest ih =>
    intro s hA h1 h2
    simp only [processArticles]
    split
    · exact ⟨h1, h2⟩
    · next hdry =>
      split
      · exact ⟨h1, h2⟩
      · have hlen : s.articleData.length ≤ 9 := by
          simp only [not_and, not_le] at hdry
          have := hdry trivial
          omega
        have ha : 1 ≤ (articleRows a).length := by
          simpa [articleRows] using hA a (List.mem_cons_self a rest)
        refine ih _ (fun x hx => hA x (List.mem_cons_of_mem _ hx)) ?_ ?_
        · show s.recordCount + 1 ≤ (s.articleData ++ articleRows a).length
          simp only [List.length_append]
          omega
        · show s.recordCount + 1 ≤ 10
          omega

/-!
## Helper lemmas about the window loop
-/

/-- Any state property preserved by appending a request entry, appending
a progress-bar update, and running the per-article loop on a fetched
payload is an invariant of the whole window loop. -/
theorem runWindows_inv (d : Bool) (limit : Option Nat) (ttr bs : Nat)
    (fetch : Nat → Int → List Article) (P : RunState → Prop)
    (hreq : ∀ (s : RunState) (r : Nat) (m : Int),
      P s → P { s with requests := s.requests ++ [(r, m)] })
    (hpb : ∀ (s : RunState) (u : Int),
      P s → P { s with pbarUpdates := s.pbarUpdates ++ [u] })
    (hpa : ∀ (r : Nat) (s : RunState), P s →
      P (processArticles d limit (fetch r (wcbs ttr bs s.recordCount)) s).1) :
    ∀ (ws : List Nat) (s : RunState), P s →
      P (runWindows d limit ttr bs fetch ws s).1 := by
  intro ws
  induction ws with
  | nil => intro s hs; exact hs
  | cons r rest ih =>
    intro s hs
    simp only [runWindows]
    have h2 : P (processArticles d limit (fetch r (wcbs ttr bs s.recordCount))
        { s with requests :=
            s.requests ++ [(r, wcbs ttr bs s.recordCount)] }).1 :=
      hpa r _ (hreq s r _ hs)
    rcases hres : processArticles d limit (fetch r (wcbs ttr bs s.recordCount))
        { s with requests :=
            s.requests ++ [(r, wcbs ttr bs s.recordCount)] } with ⟨s2, e⟩
    rw [hres] at h2
    cases e with
    | none => exact ih _ (hpb s2 _ h2)
    | some rr => exact h2

/-- The window loop only ever appends to the request trace. -/
theorem runWindows_requests_extend (d : Bool) (limit : Option Nat)
    (ttr bs : Nat) (fetch : Nat → Int → List Article) :
    ∀ (ws : List Nat) (s : RunState), ∃ t,
      (runWindows d limit ttr bs fetch ws s).1.requests =
        s.requests ++ t := by
  intro ws
  induction ws with
  | nil => intro s; exact ⟨[], (List.append_nil _).symm⟩
  | cons r rest ih =>
    intro s
    simp only [runWindows]
    rcases hres : processArticles d limit (fetch r (wcbs ttr bs s.recordCount))
        { s with requests :=
            s.requests ++ [(r, wcbs ttr bs s.recordCount)] } with ⟨s2, e⟩
    have hs2 : s2.requests =
        s.requests ++ [(r, wcbs ttr bs s.recordCount)] := by
      have := (processArticles_effects d limit
        (fetch r (wcbs ttr bs s.recordCount))
        { s with requests :=
            s.requests ++ [(r, wcbs ttr bs s.recordCount)] }).1
      rw [hres] at this
      exact this
    cases e with
    | none =>
      obtain ⟨t, ht⟩ := ih
        { s2 with pbarUpdates :=
            s2.pbarUpdates ++ [wcbs ttr bs s.recordCount] }
      refine ⟨[(r, wcbs ttr bs s.recordCount)] ++ t, ?_⟩
      rw [ht]
      show s2.requests ++ t = _
      rw [hs2, List.append_assoc]
    | some rr =>
      exact ⟨[(r, wcbs ttr bs s.recordCount)], hs2⟩

theorem pyRangeWindows_length (stop step : Nat) :
    (pyRangeWindows stop step).length = (stop + step - 1) / step := by
  simp [pyRangeWindows]

/-- The window offsets sweep the whole target: `⌈stop/step⌉` windows of
size `step` cover at least `stop` records. -/
theorem le_ceilDiv_mul (stop step : Nat) (h : 0 < step) :
    stop ≤ ((stop + step - 1) / step) * step := by
  rcases Nat.eq_zero_or_pos stop with h0 | h0
  · simp [h0]
  · rw [Nat.mul_comm]
    have h1 := Nat.div_add_mod (stop + step - 1) step
    have h2 : (stop + step - 1) % step < step := Nat.mod_lt _ h
    set q := (stop + step - 1) / step
    set r := (stop + step - 1) % step
    set m := step * q
    omega

/-- With a positive target and step, the window list starts at offset
`0`. -/
theorem pyRangeWindows_ne_nil_head (stop step : Nat) (hstop : 0 < stop)
    (hstep : 0 < step) :
    pyRangeWindows stop step ≠ [] ∧
      (pyRangeWindows stop step).head? = some 0 := by
  have hq : 1 ≤ (stop + step - 1) / step := by
    rw [Nat.one_le_div_iff hstep]; omega
  obtain ⟨n, hn⟩ : ∃ n, (stop + step - 1) / step = n + 1 :=
    ⟨(stop + step - 1) / step - 1, by omega⟩
  constructor
  · simp [pyRangeWindows, hn, List.range_succ_eq_map]
  · simp [pyRangeWindows, hn, List.range_succ_eq_map]

/-- The master lemma for runs in which every efetch request returns
exactly the requested number of articles, `dry_run` is off, and the
record limit (when set) is at least the retrieval target: no early
return happens, the record count telescopes to
`min (start + windows·batchSize, target)`, the progress-bar total equals
the number of records processed, and every update is non-negative. -/
theorem runWindows_exact (limit : Option Nat) (ttr bs : Nat)
    (fetch : Nat → Int → List Article)
    (hf : ∀ r m, (fetch r m).length = m.toNat)
    (hlim : ∀ l, limit = some l → ttr ≤ l) :
    ∀ (ws : List Nat) (s : RunState), s.recordCount ≤ ttr →
      (runWindows false limit ttr bs fetch ws s).2 = none ∧
      (runWindows false limit ttr bs fetch ws s).1.recordCount =
        min (s.recordCount + ws.length * bs) ttr ∧
      (runWindows false limit ttr bs fetch ws s).1.pbarUpdates.sum =
        s.pbarUpdates.sum +
          (((runWindows false limit ttr bs fetch ws s).1.recordCount -
            s.recordCount : Nat) : Int) ∧
      ∀ u ∈ (runWindows false limit ttr bs fetch ws s).1.pbarUpdates,
        u ∈ s.pbarUpdates ∨ 0 ≤ u := by
  intro ws
  induction ws with
  | nil =>
    intro s hs
    refine ⟨rfl, ?_, ?_, ?_⟩
    · show s.recordCount = min (s.recordCount + List.length [] * bs) ttr
      simp only [List.length_nil, Nat.zero_mul, Nat.add_zero]
      exact (Nat.min_eq_left hs).symm
    · show s.pbarUpdates.sum = s.pbarUpdates.sum +
        ((s.recordCount - s.recordCount : Nat) : Int)
      simp
    · intro u hu; exact Or.inl hu
  | cons r rest ih =>
    intro s hs
    have hcbs : wcbs ttr bs s.recordCount =
        ((min bs (ttr - s.recordCount) : Nat) : Int) := by
      unfold wcbs; omega
    have hplen : (fetch r (wcbs ttr bs s.recordCount)).length =
        min bs (ttr - s.recordCount) := by
      rw [hf, hcbs, Int.toNat_natCast]
    have hlim2 : ∀ l, limit = some l →
        ({ s with requests := s.requests ++ [(r, wcbs ttr bs s.recordCount)] }
          : RunState).recordCount +
          (fetch r (wcbs ttr bs s.recordCount)).length ≤ l := by
      intro l hl
      have hle := hlim l hl
      show s.recordCount + (fetch r (wcbs ttr bs s.recordCount)).length ≤ l
      rw [hplen]
      omega
    have hall := processArticles_all limit (fetch r (wcbs ttr bs s.recordCount))
      { s with requests := s.requests ++ [(r, wcbs ttr bs s.recordCount)] }
      hlim2
    set S3 : RunState :=
      { s with
        articleData := s.articleData ++
          ((fetch r (wcbs ttr bs s.recordCount)).map articleRows).flatten,
        recordCount := s.recordCount +
          (fetch r (wcbs ttr bs s.recordCount)).length,
        processed := s.processed ++ fetch r (wcbs ttr bs s.recordCount),
        requests := s.requests ++ [(r, wcbs ttr bs s.recordCount)],
        pbarUpdates := s.pbarUpdates ++ [wcbs ttr bs s.recordCount] }
      with hS3
    have hstep : runWindows false limit ttr bs fetch (r :: rest) s =
        runWindows false limit ttr bs fetch rest S3 := by
      simp only [runWindows]
      rw [hall, hS3]
    have hc3 : S3.recordCount =
        s.recordCount + min bs (ttr - s.recordCount) := by
      rw [hS3]
      show s.recordCount + (fetch r (wcbs ttr bs s.recordCount)).length = _
      rw [hplen]
    have h3 : S3.recordCount ≤ ttr := by rw [hc3]; omega
    obtain ⟨ih1, ih2, ih3, ih4⟩ := ih S3 h3
    rw [hstep]
    have e3 : S3.recordCount ≤
        (runWindows false limit ttr bs fetch rest S3).1.recordCount := by
      rw [ih2]
      generalize rest.length * bs = k
      omega
    refine ⟨ih1, ?_, ?_, ?_⟩
    · rw [ih2, hc3]
      simp only [List.length_cons, Nat.succ_mul]
      generalize rest.length * bs = k
      omega
    · rw [ih3]
      have e1 : S3.pbarUpdates.sum =
          s.pbarUpdates.sum + ((min bs (ttr - s.recordCount) : Nat) : Int) := by
        rw [hS3]
        show (s.pbarUpdates ++ [wcbs ttr bs s.recordCount]).sum = _
        rw [List.sum_append, hcbs]
        simp
      rw [e1]
      omega
    · intro u hu
      rcases ih4 u hu with h | h
      · have h2 : u ∈ s.pbarUpdates ++ [wcbs ttr bs s.recordCount] := by
          rw [hS3] at h
          exact h
        rcases List.mem_append.mp h2 with h' | h'
        · exact Or.inl h'
        · right
          have hu2 : u = wcbs ttr bs s.recordCount := by simpa using h'
          rw [hu2, hcbs]
          exact Int.natCast_nonneg _
      · exact Or.inr h

/-- With `record_limit = 0`, the per-article check at line 69 fires on
the first article of every payload, so no article is ever processed and
no row is ever accumulated — even though the window loop itself still
runs over the full `total_records` target. -/
theorem runWindows_limit_zero (d : Bool) (ttr bs : Nat)
    (fetch : Nat → Int → List Article) (d0 : List (List String))
    (p0 : List Article) :
    ∀ (ws : List Nat) (s : RunState),
      s.recordCount = 0 → s.articleData = d0 → s.processed = p0 →
      (runWindows d (some 0) ttr bs fetch ws s).1.recordCount = 0 ∧
      (runWindows d (some 0) ttr bs fetch ws s).1.articleData = d0 ∧
      (runWindows d (some 0) ttr bs fetch ws s).1.processed = p0 := by
  intro ws s h1 h2 h3
  exact runWindows_inv d (some 0) ttr bs fetch
    (fun s => s.recordCount = 0 ∧ s.articleData = d0 ∧ s.processed = p0)
    (fun s r m hP => ⟨hP.1, hP.2.1, hP.2.2⟩)
    (fun s u hP => ⟨hP.1, hP.2.1, hP.2.2⟩)
    (by
      intro r s hP
      have hfire : limitFires (some 0) s.recordCount = true := by
        rw [limitFires_some, hP.1]
        rfl
      rw [processArticles_fst_of_limitFires _ _ _ _ hfire]
      exact hP)
    ws s ⟨h1, h2, h3⟩

theorem totalToRetrieve_le (T : Nat) (limit : Option Nat) :
    totalToRetrieve T limit ≤ T := by
  cases limit with
  | none => exact le_refl T
  | some l =>
    simp only [totalToRetrieve]
    split
    · exact Nat.min_le_left _ _
    · exact le_refl T

theorem totalToRetrieve_none (T : Nat) : totalToRetrieve T none = T := rfl

theorem totalToRetrieve_zero (T : Nat) : totalToRetrieve T (some 0) = T := by
  simp [totalToRetrieve]

theorem totalToRetrieve_some_pos (T l : Nat) (h : l ≠ 0) :
    totalToRetrieve T (some l) = min T l := by
  simp [totalToRetrieve, h]

/-!
## Top-level facts about `fetch_articles_in_batches`
-/

/-- With a record limit `l` set, the record count at return is at most
`l`, over arbitrary fetched payloads. -/
theorem fetch_count_le_limit (d : Bool) (l T bs : Nat)
    (fetch : Nat → Int → List Article) :
    (fetch_articles_in_batches d (some l) T bs fetch).1.recordCount ≤ l :=
  runWindows_inv d (some l) (totalToRetrieve T (some l)) bs fetch
    (fun s => s.recordCount ≤ l)
    (fun _ _ _ hP => hP)
    (fun _ _ hP => hP)
    (fun _ s hP => processArticles_count_le_limit d l _ s hP)
    _ initState (Nat.zero_le l)

/-- When every payload contains at most the requested number of
articles, the record count at return is at most the retrieval target. -/
theorem fetch_count_le_target (d : Bool) (limit : Option Nat) (T bs : Nat)
    (fetch : Nat → Int → List Article)
    (hb : ∀ r m, (fetch r m).length ≤ m.toNat) :
    (fetch_articles_in_batches d limit T bs fetch).1.recordCount ≤
      totalToRetrieve T limit :=
  runWindows_inv d limit (totalToRetrieve T limit) bs fetch
    (fun s => s.recordCount ≤ totalToRetrieve T limit)
    (fun _ _ _ hP => hP)
    (fun _ _ hP => hP)
    (by
      intro r s hP
      have hg := processArticles_count_growth d limit
        (fetch r (wcbs (totalToRetrieve T limit) bs s.recordCount)) s
      have hb2 := hb r (wcbs (totalToRetrieve T limit) bs s.recordCount)
      have hm : (wcbs (totalToRetrieve T limit) bs s.recordCount).toNat ≤
          totalToRetrieve T limit - s.recordCount := by
        unfold wcbs; omega
      omega)
    _ initState (Nat.zero_le _)

/-- The returned state is `Consistent`: its rows are exactly the
concatenated row blocks of the processed articles and its record count
is the number of processed articles. -/
theorem fetch_consistent (d : Bool) (limit : Option Nat) (T bs : Nat)
    (fetch : Nat → Int → List Article) :
    Consistent (fetch_articles_in_batches d limit T bs fetch).1 :=
  runWindows_inv d limit (totalToRetrieve T limit) bs fetch Consistent
    (fun _ _ _ hP => hP)
    (fun _ _ hP => hP)
    (fun _ s hP => processArticles_consistent d limit _ s hP)
    _ initState initState_consistent

/-- Dry-run row bound: when every fetched article has at most `A`
authors, the accumulated output never exceeds `9 + A` rows. -/
theorem fetch_dry_len (limit : Option Nat) (T bs A : Nat)
    (fetch : Nat → Int → List Article)
    (hA : ∀ r m a, a ∈ fetch r m → a.authors.length ≤ A) :
    (fetch_articles_in_batches true limit T bs fetch).1.articleData.length ≤
      9 + A :=
  runWindows_inv true limit (totalToRetrieve T limit) bs fetch
    (fun s => s.articleData.length ≤ 9 + A)
    (fun _ _ _ hP => hP)
    (fun _ _ hP => hP)
    (fun r s hP => processArticles_dry_len limit A _ s
      (fun a ha => hA r _ a ha) hP)
    _ initState (Nat.zero_le _)

/-- Dry-run article bound: when every fetched article has at least one
author, at most 10 articles are processed. -/
theorem fetch_dry_count (limit : Option Nat) (T bs : Nat)
    (fetch : Nat → Int → List Article)
    (h1 : ∀ r m a, a ∈ fetch r m → 1 ≤ a.authors.length) :
    (fetch_articles_in_batches true limit T bs fetch).1.recordCount ≤ 10 :=
  (runWindows_inv true limit (totalToRetrieve T limit) bs fetch
    (fun s => s.recordCount ≤ s.articleData.length ∧ s.recordCount ≤ 10)
    (fun _ _ _ hP => hP)
    (fun _ _ hP => hP)
    (fun r s hP => processArticles_dry_count limit _ s
      (fun a ha => h1 r _ a ha) hP.1 hP.2)
    _ initState ⟨Nat.zero_le _, Nat.zero_le _⟩).2

theorem fetch_articles_def (d : Bool) (limit : Option Nat) (T bs : Nat)
    (fetch : Nat → Int → List Article) :
    fetch_articles_in_batches d limit T bs fetch =
      runWindows d limit (totalToRetrieve T limit) bs fetch
        (pyRangeWindows (totalToRetrieve T limit) bs) initState := rfl

/-- An exact run (each request answered with exactly the requested
number of articles, `dry_run` off, record limit at least the target)
completes normally, processes exactly the retrieval target, and its
progress-bar total equals the number of records processed. -/
theorem fetch_exact_reaches_target (limit : Option Nat) (T bs : Nat)
    (fetch : Nat → Int → List Article) (hbs : 0 < bs)
    (hf : ∀ r m, (fetch r m).length = m.toNat)
    (hlim : ∀ l, limit = some l → totalToRetrieve T limit ≤ l) :
    (fetch_articles_in_batches false limit T bs fetch).1.recordCount =
      totalToRetrieve T limit ∧
    (fetch_articles_in_batches false limit T bs fetch).2 = none ∧
    (fetch_articles_in_batches false limit T bs fetch).1.pbarUpdates.sum =
      ((totalToRetrieve T limit : Nat) : Int) ∧
    ∀ u ∈ (fetch_articles_in_batches false limit T bs fetch).1.pbarUpdates,
      0 ≤ u := by
  rw [fetch_articles_def]
  obtain ⟨h1, h2, h3, h4⟩ := runWindows_exact limit (totalToRetrieve T limit)
    bs fetch hf hlim (pyRangeWindows (totalToRetrieve T limit) bs) initState
    (Nat.zero_le _)
  rw [pyRangeWindows_length] at h2
  have h0 : initState.recordCount = 0 := rfl
  have hsum0 : initState.pbarUpdates.sum = 0 := rfl
  rw [h0, Nat.zero_add] at h2
  have hcount := h2.trans
    (Nat.min_eq_right (le_ceilDiv_mul (totalToRetrieve T limit) bs hbs))
  refine ⟨hcount, h1, ?_, ?_⟩
  · rw [h3, hcount, h0, hsum0]
    simp
  · intro u hu
    rcases h4 u hu with h | h
    · exact absurd h (by simp [initState])
    · exact h

/-- With `record_limit = 0` and exact payloads, the progress bar is
never advanced: if the target is positive, the first payload is
non-empty and its first article triggers the limit return before the
first `pbar.update`. -/
theorem fetch_limit_zero_exact_pbar (T bs : Nat)
    (fetch : Nat → Int → List Article) (hbs : 0 < bs)
    (hf : ∀ r m, (fetch r m).length = m.toNat) :
    (fetch_articles_in_batches false (some 0) T bs fetch).1.pbarUpdates =
      [] := by
  rw [fetch_articles_def]
  rcases Nat.eq_zero_or_pos T with rfl | hT
  · have hw : pyRangeWindows (totalToRetrieve 0 (some 0)) bs = [] := by
      rw [totalToRetrieve_zero]
      have hd : (bs - 1) / bs = 0 := Nat.div_eq_of_lt (by omega)
      simp [pyRangeWindows, hd]
    rw [hw]
    rfl
  · obtain ⟨hne, hhead⟩ := pyRangeWindows_ne_nil_head
      (totalToRetrieve T (some 0)) bs
      (by rw [totalToRetrieve_zero]; exact hT) hbs
    cases hw : pyRangeWindows (totalToRetrieve T (some 0)) bs with
    | nil => exact absurd hw hne
    | cons w t =>
      simp only [runWindows]
      have hlen : (fetch w
          (wcbs (totalToRetrieve T (some 0)) bs initState.recordCount)).length =
          min bs (totalToRetrieve T (some 0)) := by
        rw [hf]
        show (wcbs (totalToRetrieve T (some 0)) bs 0).toNat = _
        unfold wcbs
        omega
      have hpos : 0 < min bs (totalToRetrieve T (some 0)) := by
        rw [totalToRetrieve_zero]
        omega
      cases hp : fetch w
          (wcbs (totalToRetrieve T (some 0)) bs initState.recordCount) with
      | nil => rw [hp] at hlen; simp at hlen; omega
      | cons a rest2 =>
        obtain ⟨r, hr⟩ := processArticles_snd_of_limitFires false (some 0)
          a rest2
          { initState with requests := initState.requests ++
              [(w, wcbs (totalToRetrieve T (some 0)) bs
                initState.recordCount)] }
          (by rfl)
        rw [hr]
        rfl

/-- The first efetch request of a non-empty window list is recorded
first: it carries the first offset and the `current_batch_size` computed
from the starting record count. -/
theorem runWindows_head_request (d : Bool) (limit : Option Nat)
    (ttr bs : Nat) (fetch : Nat → Int → List Article) (w : Nat)
    (t : List Nat) (s : RunState) :
    (runWindows d limit ttr bs fetch (w :: t) s).1.requests.head? =
      (s.requests ++ [(w, wcbs ttr bs s.recordCount)]).head? := by
  simp only [runWindows]
  rcases hres : processArticles d limit (fetch w (wcbs ttr bs s.recordCount))
      { s with requests :=
          s.requests ++ [(w, wcbs ttr bs s.recordCount)] } with ⟨s2, e⟩
  have hs2 : s2.requests = s.requests ++ [(w, wcbs ttr bs s.recordCount)] := by
    have he := (processArticles_effects d limit
      (fetch w (wcbs ttr bs s.recordCount))
      { s with requests :=
          s.requests ++ [(w, wcbs ttr bs s.recordCount)] }).1
    rw [hres] at he
    exact he
  cases e with
  | some r =>
    show s2.requests.head? = _
    rw [hs2]
  | none =>
    obtain ⟨t2, ht2⟩ := runWindows_requests_extend d limit ttr bs fetch t
      { s2 with pbarUpdates :=
          s2.pbarUpdates ++ [wcbs ttr bs s.recordCount] }
    show (runWindows d limit ttr bs fetch t _).1.requests.head? = _
    rw [ht2]
    show (s2.requests ++ t2).head? = _
    rw [hs2]
    cases s.requests <;> simp

/-!
## Concrete fixtures for witnesses and counterexamples
-/

/-- An `<Author>` element with every subfield absent. -/
def emptyAuthor : Author := ⟨none, none, none, none⟩

/-- A `<PubmedArticle>` with every field absent and no authors. -/
def authorlessArticle : Article := ⟨none, none, none, []⟩

/-- A `<PubmedArticle>` with every field absent and `n` empty authors. -/
def stubArticle (n : Nat) : Article := ⟨none, none, none, List.replicate n emptyAuthor⟩

/-- An endpoint whose every payload is one article with 11 authors. -/
def fetchElevenAuthors : Nat → Int → List Article := fun _ _ => [stubArticle 11]

/-- An endpoint whose every payload carries two authorless articles. -/
def fetchTwoArticles : Nat → Int → List Article :=
  fun _ _ => [authorlessArticle, authorlessArticle]

/-- An endpoint whose every payload is empty. -/
def fetchEmpty : Nat → Int → List Article := fun _ _ => []

/-- An endpoint answering every request with exactly the requested
number of authorless articles. -/
def exactStubFetch : Nat → Int → List Article :=
  fun _ m => List.replicate m.toNat authorlessArticle

/-- A state that has already accumulated 10 rows. -/
def tenRowState : RunState := ⟨List.replicate 10 [], 0, [], [], []⟩

/-!
## The claims
-/

/-- C1, counterexample.  The claim "in dry-run mode the returned row
sequence has length at most 10" fails on the code: with `dryRun = true`,
`totalCount = 1`, `batchSize = 500` and a payload holding one article
with 11 authors, the run returns 11 rows — the cap is only checked
before an article, and the whole author list of an admitted article is
appended. -/
theorem c1_counterexample :
    (fetch_articles_in_batches true none 1 500
        fetchElevenAuthors).1.articleData.length = 11 ∧
    ¬ ((fetch_articles_in_batches true none 1 500
        fetchElevenAuthors).1.articleData.length ≤ 10) := by
  decide

/-- C1 (amended).  In dry-run mode an article is only processed while
fewer than 10 rows are accumulated, and an admitted article's whole
author list is appended: hence (1) when every fetched article has at
most `A` authors the returned row count is at most `9 + A` — at most 10
when articles have at most one author, but beyond 10 when the last
admitted article has several — and (2) when every fetched article has at
least one author, at most 10 articles are processed, so (3) under the
same hypothesis fewer than `totalCount` articles are processed whenever
`totalCount` exceeds 10.  The run need not return early: when the
articles that fit under the cap already exhaust the result set (e.g.
`totalCount = 4` with 3 authors each, returning 12 rows), the loop
completes normally. -/
theorem c1_dry_run_row_bound (limit : Option Nat) (T bs A : Nat)
    (fetch : Nat → Int → List Article) :
    ((∀ r m a, a ∈ fetch r m → a.authors.length ≤ A) →
      (fetch_articles_in_batches true limit T bs
        fetch).1.articleData.length ≤ 9 + A) ∧
    ((∀ r m a, a ∈ fetch r m → 1 ≤ a.authors.length) →
      (fetch_articles_in_batches true limit T bs
        fetch).1.recordCount ≤ 10) ∧
    ((∀ r m a, a ∈ fetch r m → 1 ≤ a.authors.length) → 10 < T →
      (fetch_articles_in_batches true limit T bs
        fetch).1.recordCount < T) :=
  ⟨fun hA => fetch_dry_len limit T bs A fetch hA,
   fun h1 => fetch_dry_count limit T bs fetch h1,
   fun h1 hT =>
     Nat.lt_of_le_of_lt (fetch_dry_count limit T bs fetch h1) hT⟩

/-- C1, witness. -/
theorem c1_witness :
    (fetch_articles_in_batches true none 12 500
        fetchEmpty).1.articleData.length ≤ 9 + 0 ∧
    (fetch_articles_in_batches true none 12 500
        fetchEmpty).1.recordCount ≤ 10 ∧
    (fetch_articles_in_batches true none 12 500
        fetchEmpty).1.recordCount < 12 :=
  ⟨(c1_dry_run_row_bound none 12 500 0 fetchEmpty).1
      (by intro r m a ha; simp [fetchEmpty] at ha),
   (c1_dry_run_row_bound none 12 500 0 fetchEmpty).2.1
      (by intro r m a ha; simp [fetchEmpty] at ha),
   (c1_dry_run_row_bound none 12 500 0 fetchEmpty).2.2
      (by intro r m a ha; simp [fetchEmpty] at ha) (by decide)⟩

/-- C2.  In a run with `dry_run` off in which every efetch request is
answered with exactly the requested number of articles, the number of
articles processed at return equals `min L T` when `recordLimit = L` is
given (including the degenerate `L = 0`, where the per-article check
stops processing immediately), and equals `T` when no limit is given. -/
theorem c2_processed_eq_min (T bs : Nat) (limit : Option Nat)
    (fetch : Nat → Int → List Article) (hbs : 0 < bs)
    (hf : ∀ r m, (fetch r m).length = m.toNat) :
    (∀ l, limit = some l →
      (fetch_articles_in_batches false limit T bs fetch).1.recordCount =
        min l T) ∧
    (limit = none →
      (fetch_articles_in_batches false limit T bs fetch).1.recordCount =
        T) := by
  constructor
  · intro l hl
    subst hl
    rcases Nat.eq_zero_or_pos l with rfl | hpos
    · rw [fetch_articles_def]
      have h0 := (runWindows_limit_zero false
        (totalToRetrieve T (some 0)) bs fetch [] []
        (pyRangeWindows (totalToRetrieve T (some 0)) bs) initState
        rfl rfl rfl).1
      rw [h0]
      simp
    · have hlim2 : ∀ l', some l = some l' →
          totalToRetrieve T (some l) ≤ l' := by
        intro l' h
        injection h with h
        subst h
        rw [totalToRetrieve_some_pos T l (by omega)]
        exact Nat.min_le_right _ _
      have h := (fetch_exact_reaches_target (some l) T bs fetch hbs hf
        hlim2).1
      rw [h, totalToRetrieve_some_pos T l (by omega), Nat.min_comm]
  · intro hl
    subst hl
    have h := (fetch_exact_reaches_target none T bs fetch hbs hf
      (by intro l hl; cases hl)).1
    rw [h, totalToRetrieve_none]

/-- C2, witness. -/
theorem c2_witness :
    (fetch_articles_in_batches false (some 2) 3 2
        exactStubFetch).1.recordCount = min 2 3 :=
  (c2_processed_eq_min 3 2 (some 2) exactStubFetch (by decide)
    (by intro r m; simp [exactStubFetch])).1 2 rfl

/-- C3.  In a run without dry-run and without a record limit, the number
of returned output rows equals the sum over the processed articles of
their author counts, `recordsProcessed` equals the number of processed
articles (it increments once per article, authors or not), and an
article with zero authors contributes zero rows. -/
theorem c3_rows_eq_author_sum (T bs : Nat)
    (fetch : Nat → Int → List Article) :
    (fetch_articles_in_batches false none T bs
        fetch).1.articleData.length =
      ((fetch_articles_in_batches false none T bs fetch).1.processed.map
        (fun a => a.authors.length)).sum ∧
    (fetch_articles_in_batches false none T bs fetch).1.recordCount =
      (fetch_articles_in_batches false none T bs
        fetch).1.processed.length ∧
    ∀ a : Article, a.authors = [] → articleRows a = [] := by
  obtain ⟨h1, h2⟩ := fetch_consistent false none T bs fetch
  refine ⟨?_, h2, ?_⟩
  · rw [h1, List.length_flatten, List.map_map]
    have hfun : (List.length ∘ articleRows) =
        fun a : Article => a.authors.length := by
      funext a
      simp [articleRows]
    rw [hfun]
  · intro a h
    simp [articleRows, h]

/-- C3, witness. -/
theorem c3_witness : articleRows authorlessArticle = [] :=
  (c3_rows_eq_author_sum 0 1 fetchEmpty).2.2 authorlessArticle rfl

/-- C4.  Field extraction is total: for every author of every article
the produced row is a 7-element row, and whenever `PMID`, the title, the
publication year (absent date container, or container without a year),
or any of the author's four subfields is missing, the corresponding row
position holds the literal string `"N/A"` — the row is in the article's
row block, with no column ever omitted. -/
theorem c4_extraction_total (a : Article) (au : Author)
    (hm : au ∈ a.authors) :
    extractRow a au ∈ articleRows a ∧
    (extractRow a au).length = 7 ∧
    (a.pmid = none → (extractRow a au).getD 0 "" = "N/A") ∧
    (a.articleTitle = none → (extractRow a au).getD 1 "" = "N/A") ∧
    (a.pubDate = none → (extractRow a au).getD 2 "" = "N/A") ∧
    (∀ d, a.pubDate = some d → d.year = none →
      (extractRow a au).getD 2 "" = "N/A") ∧
    (au.lastName = none → (extractRow a au).getD 3 "" = "N/A") ∧
    (au.foreName = none → (extractRow a au).getD 4 "" = "N/A") ∧
    (au.initials = none → (extractRow a au).getD 5 "" = "N/A") ∧
    (au.affiliation = none → (extractRow a au).getD 6 "" = "N/A") := by
  refine ⟨?_, rfl, ?_, ?_, ?_, ?_, ?_, ?_, ?_, ?_⟩
  · simp only [articleRows]
    exact List.mem_map_of_mem _ hm
  · intro h; simp [extractRow, optText, h]
  · intro h; simp [extractRow, optText, h]
  · intro h; simp [extractRow, articleYear, h]
  · intro d hd hy; simp [extractRow, articleYear, hd, hy]
  · intro h; simp [extractRow, optText, h]
  · intro h; simp [extractRow, optText, h]
  · intro h; simp [extractRow, optText, h]
  · intro h; simp [extractRow, optText, h]

/-- C4, witness. -/
theorem c4_witness :
    (extractRow (stubArticle 1) emptyAuthor).getD 0 "" = "N/A" ∧
    (extractRow (stubArticle 1) emptyAuthor).getD 2 "" = "N/A" ∧
    (extractRow (stubArticle 1) emptyAuthor).length = 7 := by
  have h := c4_extraction_total (stubArticle 1) emptyAuthor
    (by simp [stubArticle])
  exact ⟨h.2.2.1 rfl, h.2.2.2.2.1 rfl, h.2.1⟩

/-- C5, counterexample.  The claim "recordsProcessed never exceeds
min(totalCount, recordLimit)" fails over arbitrary payloads: with
`totalCount = 1`, `recordLimit = 5` and a payload of two articles, both
are processed (the limit check compares against 5, not 1), so
`recordsProcessed = 2 > min 1 5`. -/
theorem c5_counterexample :
    (fetch_articles_in_batches false (some 5) 1 500
        fetchTwoArticles).1.recordCount = 2 ∧
    ¬ ((fetch_articles_in_batches false (some 5) 1 500
        fetchTwoArticles).1.recordCount ≤ min 1 5) := by
  decide

/-- C5 (amended).  Over arbitrary fetched payloads, `recordsProcessed`
at return never exceeds `recordLimit` when it is set (its check runs
before every article); the additional bound by `totalCount` — i.e. by
`min(totalCount, recordLimit)`, or by `totalCount` alone when no limit
is set — holds when every fetched payload contains at most the requested
number of articles, and can fail for oversized payloads.  Since the
record count never decreases during a run, the bound at return bounds
every intermediate point. -/
theorem c5_record_count_bounds (limit : Option Nat) (T bs : Nat)
    (fetch : Nat → Int → List Article) :
    (∀ l, limit = some l →
      (fetch_articles_in_batches false limit T bs fetch).1.recordCount ≤
        l) ∧
    ((∀ r m, (fetch r m).length ≤ m.toNat) →
      (fetch_articles_in_batches false limit T bs fetch).1.recordCount ≤
        totalToRetrieve T limit) ∧
    ((∀ r m, (fetch r m).length ≤ m.toNat) →
      (fetch_articles_in_batches false limit T bs fetch).1.recordCount ≤
        T) := by
  refine ⟨?_, ?_, ?_⟩
  · intro l hl
    subst hl
    exact fetch_count_le_limit false l T bs fetch
  · intro hb
    exact fetch_count_le_target false limit T bs fetch hb
  · intro hb
    exact le_trans (fetch_count_le_target false limit T bs fetch hb)
      (totalToRetrieve_le T limit)

/-- C5, witness. -/
theorem c5_witness :
    (fetch_articles_in_batches false (some 3) 4 500
        fetchEmpty).1.recordCount ≤ 3 ∧
    (fetch_articles_in_batches false (some 3) 4 500
        fetchEmpty).1.recordCount ≤ totalToRetrieve 4 (some 3) ∧
    (fetch_articles_in_batches false (some 3) 4 500
        fetchEmpty).1.recordCount ≤ 4 :=
  ⟨(c5_record_count_bounds (some 3) 4 500 fetchEmpty).1 3 rfl,
   (c5_record_count_bounds (some 3) 4 500 fetchEmpty).2.1
     (by intro r m; simp [fetchEmpty]),
   (c5_record_count_bounds (some 3) 4 500 fetchEmpty).2.2
     (by intro r m; simp [fetchEmpty])⟩

/-- C6.  Per-article processing order: for the next article of a
payload, (1) with dry-run on and 10 or more accumulated rows, the loop
returns the state unchanged via the dry-run return, before the limit
check; (2) otherwise, when the record-limit check fires, it returns the
state unchanged via the limit return; (3) otherwise the article's whole
author-row block is appended atomically and only then is the record
count incremented by exactly 1; consequently (4) the rows a run returns
are exactly the concatenation of whole per-article row blocks — never a
truncated author list. -/
theorem c6_per_article_order (d : Bool) (limit : Option Nat) (a : Article)
    (rest : List Article) (s : RunState) :
    (d = true → 10 ≤ s.articleData.length →
      processArticles d limit (a :: rest) s = (s, some .dryRunCap)) ∧
    (¬ (d = true ∧ 10 ≤ s.articleData.length) →
      limitFires limit s.recordCount = true →
      processArticles d limit (a :: rest) s = (s, some .limitCap)) ∧
    (¬ (d = true ∧ 10 ≤ s.articleData.length) →
      limitFires limit s.recordCount = false →
      processArticles d limit (a :: rest) s =
        processArticles d limit rest
          { s with
            articleData := s.articleData ++ articleRows a,
            recordCount := s.recordCount + 1,
            processed := s.processed ++ [a] }) ∧
    (∀ (d2 : Bool) (T bs : Nat) (fetch : Nat → Int → List Article),
      (fetch_articles_in_batches d2 limit T bs fetch).1.articleData =
        ((fetch_articles_in_batches d2 limit T bs
          fetch).1.processed.map articleRows).flatten) := by
  refine ⟨?_, ?_, ?_, ?_⟩
  · intro h1 h2
    simp only [processArticles]
    rw [if_pos ⟨h1, h2⟩]
  · intro h1 h2
    simp only [processArticles]
    rw [if_neg h1, if_pos h2]
  · intro h1 h2
    simp only [processArticles]
    rw [if_neg h1, if_neg (by simp [h2])]
  · intro d2 T bs fetch
    exact (fetch_consistent d2 limit T bs fetch).1

/-- C6, witness. -/
theorem c6_witness :
    processArticles true none (authorlessArticle :: []) tenRowState =
      (tenRowState, some ExitReason.dryRunCap) :=
  (c6_per_article_order true none authorlessArticle [] tenRowState).1
    rfl (by decide)

/-- C7, counterexample.  The claim "the progress counter is advanced by
the batch's actual article count" fails on the code: the counter is
advanced by `current_batch_size` (the requested window size).  With
`totalCount = 5` and an empty payload, the one batch advances the bar by
5 while the payload holds 0 articles. -/
theorem c7_counterexample :
    (fetch_articles_in_batches false none 5 500
        fetchEmpty).1.pbarUpdates = [(5 : Int)] ∧
    fetchEmpty 0 5 = [] ∧
    ((5 : Int) ≠ ((fetchEmpty 0 5).length : Int)) := by
  decide

/-- C7 (amended).  After each completed batch the progress counter is
advanced by `current_batch_size = min(batchSize, target − recordCount)`
— equal to the batch's actual article count only when the fetch returns
exactly what was requested.  When every request is answered exactly (and
`dry_run` is off), the counter total equals `recordsProcessed`, is
bounded by the retrieval target, and every advance is non-negative
(monotonically increasing). -/
theorem c7_pbar_tracks_requested (limit : Option Nat) (T bs : Nat)
    (fetch : Nat → Int → List Article) (hbs : 0 < bs)
    (hf : ∀ r m, (fetch r m).length = m.toNat) :
    (fetch_articles_in_batches false limit T bs
        fetch).1.pbarUpdates.sum =
      ((fetch_articles_in_batches false limit T bs
        fetch).1.recordCount : Int) ∧
    (fetch_articles_in_batches false limit T bs fetch).1.recordCount ≤
      totalToRetrieve T limit ∧
    ∀ u ∈ (fetch_articles_in_batches false limit T bs
        fetch).1.pbarUpdates, 0 ≤ u := by
  rcases limit with _ | l
  · obtain ⟨h1, _, h3, h4⟩ := fetch_exact_reaches_target none T bs fetch
      hbs hf (by intro l hl; cases hl)
    exact ⟨by rw [h3, h1], le_of_eq h1, h4⟩
  · rcases Nat.eq_zero_or_pos l with rfl | hpos
    · have hpb := fetch_limit_zero_exact_pbar T bs fetch hbs hf
      have hc : (fetch_articles_in_batches false (some 0) T bs
          fetch).1.recordCount = 0 := by
        rw [fetch_articles_def]
        exact (runWindows_limit_zero false (totalToRetrieve T (some 0))
          bs fetch [] [] _ initState rfl rfl rfl).1
      refine ⟨?_, ?_, ?_⟩
      · rw [hpb, hc]; rfl
      · rw [hc]; exact Nat.zero_le _
      · intro u hu
        rw [hpb] at hu
        simp at hu
    · have hlim2 : ∀ l', some l = some l' →
          totalToRetrieve T (some l) ≤ l' := by
        intro l' h
        injection h with h
        subst h
        rw [totalToRetrieve_some_pos T l (by omega)]
        exact Nat.min_le_right _ _
      obtain ⟨h1, _, h3, h4⟩ := fetch_exact_reaches_target (some l) T bs
        fetch hbs hf hlim2
      exact ⟨by rw [h3, h1], le_of_eq h1, h4⟩

/-- C7, witness. -/
theorem c7_witness :
    (fetch_articles_in_batches false none 3 2
        exactStubFetch).1.pbarUpdates.sum =
      ((fetch_articles_in_batches false none 3 2
        exactStubFetch).1.recordCount : Int) ∧
    (fetch_articles_in_batches false none 3 2
        exactStubFetch).1.recordCount ≤ totalToRetrieve 3 none ∧
    ∀ u ∈ (fetch_articles_in_batches false none 3 2
        exactStubFetch).1.pbarUpdates, 0 ≤ u :=
  c7_pbar_tracks_requested none 3 2 exactStubFetch (by decide)
    (by intro r m; simp [exactStubFetch])

/-- C8.  When any of the expected `Count`, `WebEnv` or `QueryKey` fields
is absent from the search-endpoint response, `get_total_records` fails
with the parse failure of the error taxonomy (in the Python source, the
`AttributeError` raised by `.text` on a missing element) instead of
returning a `(count, web_env, query_key)` session triple; the model is a
single evaluation, so the failure is surfaced without retry. -/
theorem c8_parse_error_on_missing_fields (resp : ESearchResponse)
    (h : resp.count = none ∨ resp.webEnv = none ∨ resp.queryKey = none) :
    get_total_records resp = Except.error ScraperError.parseError := by
  obtain ⟨c, w, q⟩ := resp
  rcases h with h | h | h
  · simp only at h
    subst h
    rfl
  · simp only at h
    subst h
    cases c with
    | none => rfl
    | some cs =>
      rcases hci : cs.toInt? with _ | n <;> simp [get_total_records, hci]
  · simp only at h
    subst h
    cases c with
    | none => rfl
    | some cs =>
      rcases hci : cs.toInt? with _ | n <;>
        cases w <;> simp [get_total_records, hci]

/-- C8, witness. -/
theorem c8_witness :
    get_total_records ⟨none, some "w", some "k"⟩ =
      Except.error ScraperError.parseError :=
  c8_parse_error_on_missing_fields ⟨none, some "w", some "k"⟩ (Or.inl rfl)

/-- C9.  Every row the batch fetcher accumulates is a 7-element row in
the fixed order produced by `extractRow` (pmid, title, year, last name,
fore name, initials, affiliation), so every row `save_to_csv` writes —
the header included — has the same arity as the 7-column header. -/
theorem c9_row_arity (d : Bool) (limit : Option Nat) (T bs : Nat)
    (fetch : Nat → Int → List Article) :
    (∀ row ∈ save_to_csv
        (fetch_articles_in_batches d limit T bs fetch).1.articleData,
      row.length = csvHeader.length) ∧
    (∀ row ∈ (fetch_articles_in_batches d limit T bs
        fetch).1.articleData,
      ∃ a au, a ∈ (fetch_articles_in_batches d limit T bs
          fetch).1.processed ∧
        au ∈ a.authors ∧ row = extractRow a au) := by
  have hshape : ∀ row ∈ (fetch_articles_in_batches d limit T bs
      fetch).1.articleData,
      ∃ a au, a ∈ (fetch_articles_in_batches d limit T bs
          fetch).1.processed ∧
        au ∈ a.authors ∧ row = extractRow a au := by
    intro row hrow
    rw [(fetch_consistent d limit T bs fetch).1, List.mem_flatten]
      at hrow
    obtain ⟨l, hl, hrl⟩ := hrow
    rw [List.mem_map] at hl
    obtain ⟨a, ha, rfl⟩ := hl
    simp only [articleRows, List.mem_map] at hrl
    obtain ⟨au, hau, rfl⟩ := hrl
    exact ⟨a, au, ha, hau, rfl⟩
  refine ⟨?_, hshape⟩
  intro row hrow
  simp only [save_to_csv, List.mem_cons] at hrow
  rcases hrow with rfl | hrow
  · rfl
  · obtain ⟨a, au, _, _, rfl⟩ := hshape row hrow
    rfl

/-- C9, witness. -/
theorem c9_witness :
    csvHeader.length = csvHeader.length :=
  (c9_row_arity false none 0 1 fetchEmpty).1 csvHeader
    (by simp [save_to_csv])

/-- C10.  With `recordLimit = 0` and a positive `totalCount`, the run
processes no article and returns no row, yet the retrieval target is
computed as `totalCount` (a zero limit is falsy in the Python target
expression, hence treated as unset), and the first efetch request — for
offset 0 and `min(batchSize, totalCount)` records — is still issued
before the per-article limit check returns. -/
theorem c10_zero_limit (T bs : Nat) (fetch : Nat → Int → List Article)
    (hT : 0 < T) (hbs : 0 < bs) :
    totalToRetrieve T (some 0) = T ∧
    (fetch_articles_in_batches false (some 0) T bs
      fetch).1.articleData = [] ∧
    (fetch_articles_in_batches false (some 0) T bs
      fetch).1.recordCount = 0 ∧
    (fetch_articles_in_batches false (some 0) T bs
      fetch).1.processed = [] ∧
    (fetch_articles_in_batches false (some 0) T bs
      fetch).1.requests.head? = some (0, min (bs : Int) (T : Int)) ∧
    1 ≤ (fetch_articles_in_batches false (some 0) T bs
      fetch).1.requests.length := by
  have h0 := runWindows_limit_zero false (totalToRetrieve T (some 0)) bs
    fetch [] [] (pyRangeWindows (totalToRetrieve T (some 0)) bs)
    initState rfl rfl rfl
  have hhead2 : (fetch_articles_in_batches false (some 0) T bs
      fetch).1.requests.head? = some (0, min (bs : Int) (T : Int)) := by
    obtain ⟨hne, hhead⟩ := pyRangeWindows_ne_nil_head
      (totalToRetrieve T (some 0)) bs
      (by rw [totalToRetrieve_zero]; exact hT) hbs
    cases hw : pyRangeWindows (totalToRetrieve T (some 0)) bs with
    | nil => exact absurd hw hne
    | cons w t =>
      rw [hw] at hhead
      have hw0 : w = 0 := by simpa using hhead
      subst hw0
      rw [fetch_articles_def, hw, runWindows_head_request]
      have hcbs : wcbs (totalToRetrieve T (some 0)) bs
          initState.recordCount = min (bs : Int) (T : Int) := by
        show wcbs (totalToRetrieve T (some 0)) bs 0 = _
        rw [totalToRetrieve_zero]
        unfold wcbs
        omega
      rw [hcbs]
      rfl
  refine ⟨totalToRetrieve_zero T, ?_, ?_, ?_, hhead2, ?_⟩
  · rw [fetch_articles_def]; exact h0.2.1
  · rw [fetch_articles_def]; exact h0.1
  · rw [fetch_articles_def]; exact h0.2.2
  · cases hreqs : (fetch_articles_in_batches false (some 0) T bs
        fetch).1.requests with
    | nil => rw [hreqs] at hhead2; simp at hhead2
    | cons x xs => simp

/-- C10, witness. -/
theorem c10_witness :
    (fetch_articles_in_batches false (some 0) 7 500
        fetchTwoArticles).1.recordCount = 0 ∧
    totalToRetrieve 7 (some 0) = 7 :=
  ⟨(c10_zero_limit 7 500 fetchTwoArticles (by decide) (by decide)).2.2.1,
   (c10_zero_limit 7 500 fetchTwoArticles (by decide) (by decide)).1⟩

end PubmedScraper
